import Mathlib

/-!
Verification development for the `witness` screen-capture-to-GIF pipeline.

The development shallowly embeds the Go sources:
* the GIF encoder (`package encoder`: `NewGIFEncoder`, `AddFrame`, `Encode`,
  `FrameCount`, `convertToPaletted`, `getPalette`),
* the region parser/formatter (`pkg/selector/selector.go`:
  `ParseRegionString`, `FormatRegionString`),
* the mock frame source (`pkg/capture`: `MockCapturer` with `Start`, `Stop`,
  `captureLoop`, `generateFrame`).

Go machine integers are embedded as `Int` with Go's truncating division
(`Int.tdiv`); division by zero, a Go run-time panic, is embedded as `none`.
Go strings are embedded as `List Char`.  Standard-library collaborators
(`fmt` scanning/printing of `%d`, `image`, `image/color/palette`,
`image/draw`, `image/gif`, `os.Create`) are modelled explicitly where the
repository code calls them; each such model carries a doc comment saying
what it models.
-/

namespace Witness

/-- Go integer division: truncation toward zero (`Int.tdiv` has exactly Go's
rounding); a zero divisor panics at run time in Go, embedded as `none`. -/
def goDiv (a b : Int) : Option Int :=
  if b = 0 then none else some (Int.tdiv a b)

/-- Go `color.RGBA`: an 8-bit-per-channel color (models the standard library
`image/color` package, an external collaborator of the repository). -/
structure Color where
  r : Nat
  g : Nat
  b : Nat
  a : Nat
deriving Repr, DecidableEq

/-- Go `image.Point` (standard library `image` package). -/
structure Point where
  x : Int
  y : Int
deriving Repr, DecidableEq

/-- Go `image.Rectangle` (standard library `image` package). -/
structure Rectangle where
  min : Point
  max : Point
deriving Repr, DecidableEq

/-- Go `image.Rect(x0, y0, x1, y1)` for already-ordered corners. -/
def mkRect (x0 y0 x1 y1 : Int) : Rectangle :=
  ⟨⟨x0, y0⟩, ⟨x1, y1⟩⟩

/-- Go `Rectangle.Dx`: the width of a rectangle. -/
def Rectangle.dx (r : Rectangle) : Int :=
  r.max.x - r.min.x

/-- Go `Rectangle.Dy`: the height of a rectangle. -/
def Rectangle.dy (r : Rectangle) : Int :=
  r.max.y - r.min.y

/-- Go `image.RGBA`: a true-color raster with its bounds; the pixel store is
embedded as a function from coordinates to colors (standard library `image`
package). -/
structure RGBA where
  rect : Rectangle
  pix : Int → Int → Color

/-- Go `image.Paletted`: a palette-indexed raster with its bounds (standard
library `image` package). -/
structure Paletted where
  rect : Rectangle
  palette : List Color
  pix : Int → Int → Nat

/-- Go `image.NewRGBA`: a fresh raster with the given bounds, zeroed pixels. -/
def newRGBA (r : Rectangle) : RGBA :=
  ⟨r, fun _ _ => ⟨0, 0, 0, 0⟩⟩

/-- Go `image.NewPaletted`: a fresh paletted raster with the given bounds and
palette, zeroed pixel indices. -/
def newPaletted (r : Rectangle) (p : List Color) : Paletted :=
  ⟨r, p, fun _ _ => 0⟩

/-- Models the standard library `image/color/palette.Plan9` palette (an
external collaborator): the fixed 256-entry palette produced by its
generator, which walks a 4×4×4 subdivision of RGB space with 4 intensity
shades per subcube. Only its length (256) matters to the claims below. -/
def plan9 : List Color :=
  (List.range 4).flatMap fun r =>
    (List.range 4).flatMap fun v =>
      (List.range 4).flatMap fun g =>
        (List.range 4).map fun b =>
          let den := max r (max g b)
          if den = 0 then
            ⟨v * 0x11, v * 0x11, v * 0x11, 0xff⟩
          else
            let num := 17 * (4 * den + v)
            ⟨r * num / den, g * num / den, b * num / den, 0xff⟩

/-- Models the standard library `image/color/palette.WebSafe` palette (an
external collaborator): the 6×6×6 = 216 colors whose channels are multiples
of `0x33`. -/
def webSafe : List Color :=
  (List.range 6).flatMap fun r =>
    (List.range 6).flatMap fun g =>
      (List.range 6).map fun b =>
        ⟨0x33 * r, 0x33 * g, 0x33 * b, 0xff⟩

/-- Go `color.RGBA.RGBA()`: widening of an 8-bit channel to the 16-bit
alpha-premultiplied scale used by palette lookup. -/
def chan16 (c : Nat) : Nat :=
  c * 0x101

/-- Go `sqDiff` from `image/color`: squared channel difference, shifted right
by two; the operands are at most `0xffff` so the `uint32` arithmetic in Go is
exact and needs no wrap-around here. -/
def sqDiff (x y : Nat) : Nat :=
  let d := max x y - min x y
  d * d / 4

/-- Go `color.Palette.Index` inner loop: walk the palette keeping the index
of the smallest red/green/blue squared distance seen so far. -/
def bestIndexFrom (c : Color) : List Color → Nat → Nat → Nat → Nat
  | [], _, ret, _ => ret
  | pc :: rest, i, ret, bestSum =>
    let sum := sqDiff (chan16 pc.r) (chan16 c.r) +
      sqDiff (chan16 pc.g) (chan16 c.g) +
      sqDiff (chan16 pc.b) (chan16 c.b)
    if sum < bestSum then bestIndexFrom c rest (i + 1) i sum
    else bestIndexFrom c rest (i + 1) ret bestSum

/-- Go `color.Palette.Index` (standard library `image/color`): index of the
palette entry closest to `c` in red/green/blue squared distance. -/
def paletteIndex (p : List Color) (c : Color) : Nat :=
  bestIndexFrom c p 0 0 (2 ^ 32 - 1)

/-- Models the standard library `image/draw.FloydSteinberg.Draw` call made by
`convertToPaletted` (an external collaborator): it writes quantized pixel
data into the destination and changes neither its bounds nor its palette.
The error-diffusion arithmetic is abstracted to per-pixel nearest-palette
quantization; no claim below depends on the diffused pixel values, only on
the bounds, the palette and totality. -/
def floydSteinbergDraw (dst : Paletted) (_bounds : Rectangle) (src : RGBA)
    (_sp : Point) : Paletted :=
  { dst with pix := fun x y => paletteIndex dst.palette (src.pix x y) }

/-- Go `encoder.GIFQuality`: an integer quality level (`type GIFQuality int`). -/
abbrev GIFQuality := Int

/-- Go `encoder.QualityLow` (= iota 0). -/
def QualityLow : GIFQuality := 0

/-- Go `encoder.QualityMedium` (= 1). -/
def QualityMedium : GIFQuality := 1

/-- Go `encoder.QualityHigh` (= 2). -/
def QualityHigh : GIFQuality := 2

/-- Go `capture.Frame`: the captured raster (a nil-able pointer, hence
`Option`) with its capture timestamp. Go's `time.Time` is embedded as an
integer tick. -/
structure Frame where
  image : Option RGBA
  timestamp : Int

/-- Go `encoder.GIFEncoder`: quality level, per-frame delay in hundredths of
a second, output path, and the buffered paletted frames with their delays. -/
structure GIFEncoder where
  quality : GIFQuality
  delay : Int
  outputPath : String
  frames : List Paletted
  delays : List Int

/-- Go `encoder.NewGIFEncoder`: the delay is `100 / fps` (Go truncating
division, a run-time panic when `fps = 0`, hence `Option`), raised to the
minimum of 1 when below 1; the frame and delay buffers start empty. -/
def newGIFEncoder (outputPath : String) (fps : Int) (quality : GIFQuality) :
    Option GIFEncoder :=
  (goDiv 100 fps).map fun d =>
    let delay := if d < 1 then 1 else d
    ⟨quality, delay, outputPath, [], []⟩

/-- Go `GIFEncoder.getPalette`: switch on the quality level; `Low` takes the
first 64 Plan9 colors, `Medium` the full Plan9 palette, `High` the WebSafe
palette, and any other integer value falls through to Plan9. -/
def getPalette (e : GIFEncoder) : List Color :=
  if e.quality = QualityLow then plan9.take 64
  else if e.quality = QualityMedium then plan9
  else if e.quality = QualityHigh then webSafe
  else plan9

/-- Go `GIFEncoder.convertToPaletted`: allocate a paletted raster with the
source bounds and the quality's palette, then Floyd–Steinberg-draw the RGBA
source onto it. -/
def convertToPaletted (e : GIFEncoder) (img : RGBA) : Paletted :=
  let bounds := img.rect
  let palettedImg := newPaletted bounds (getPalette e)
  floydSteinbergDraw palettedImg bounds img ⟨0, 0⟩

/-- Go `GIFEncoder.AddFrame`: a nil frame or a frame with a nil image is
rejected with the `invalid frame` error and the encoder is untouched;
otherwise the converted frame and the precomputed delay are appended. The
pair returns the (possibly updated) receiver and the returned error. -/
def addFrame (e : GIFEncoder) (frame : Option Frame) :
    GIFEncoder × Option String :=
  match frame with
  | none => (e, some "invalid frame")
  | some f =>
    match f.image with
    | none => (e, some "invalid frame")
    | some img =>
      let palettedImg := convertToPaletted e img
      ({ e with
          frames := e.frames ++ [palettedImg],
          delays := e.delays ++ [e.delay] }, none)

/-- Go `GIFEncoder.FrameCount`: the number of buffered frames. -/
def frameCount (e : GIFEncoder) : Nat :=
  e.frames.length

/-- Models the host filesystem seen through `os.Create` and file writes: an
association list from paths to byte contents, plus two environment flags
saying whether creation at the destination fails (permission denied, missing
directory, ...) and whether writes to the created file fail (disk full,
device error, ...). -/
structure FSState where
  files : List (String × List Nat)
  createFails : Bool
  writeFails : Bool

/-- Association-list update: replace the contents stored for `path`, or add
the entry when absent. -/
def setFile : List (String × List Nat) → String → List Nat →
    List (String × List Nat)
  | [], path, contents => [(path, contents)]
  | (p, c) :: rest, path, contents =>
    if p = path then (p, contents) :: rest
    else (p, c) :: setFile rest path contents

/-- Association-list lookup of a file's contents; `none` when no file exists
at the path. -/
def lookupFile : List (String × List Nat) → String → Option (List Nat)
  | [], _ => none
  | (p, c) :: rest, path => if p = path then some c else lookupFile rest path

/-- Models `os.Create` (standard library `os`): truncates or creates an empty
file at the path, or fails when the environment says the destination cannot
be created. -/
def osCreate (fs : FSState) (path : String) : Option FSState :=
  if fs.createFails then none
  else some { fs with files := setFile fs.files path [] }

/-- Models the per-frame size check `gif.EncodeAll` performs while writing:
a frame whose width or height does not fit in the GIF format's 16-bit
extents makes encoding fail with `gif: image is too large to encode`. -/
def frameTooLarge (p : Paletted) : Bool :=
  decide (65536 ≤ p.rect.dx) || decide (65536 ≤ p.rect.dy)

/-- Models `gif.EncodeAll` (standard library `image/gif`, an external
collaborator) writing an animated GIF through the file handle: it returns an
error when the underlying writer fails (the destination cannot be written)
or when some frame is too large for the format, and otherwise the bytes
written are the `GIF89a` header, an image-descriptor block per frame, and
the `0x3B` trailer. The per-frame LZW pixel data is abstracted to the
descriptor byte; the claims below depend only on the error cases and on the
successful output being non-empty. -/
def gifEncodeAll (frames : List Paletted) (_delays : List Int)
    (writeFails : Bool) : Except String (List Nat) :=
  if writeFails then .error "write error"
  else if frames.any frameTooLarge then
    .error "gif: image is too large to encode"
  else
    .ok ([0x47, 0x49, 0x46, 0x38, 0x39, 0x61] ++
      frames.map (fun _ => 0x2C) ++ [0x3B])

/-- Go `GIFEncoder.Encode`: an empty buffer is rejected with the
`no frames to encode` error before any file is touched; then the output file
is created (an `os.Create` failure is wrapped as the
`failed to create output file` error) and the animation is handed to
`gif.EncodeAll`, whose failure — the destination cannot be written, or a
frame is unencodable — is wrapped as the `failed to encode GIF` error; on
success the encoded bytes are the file's contents at the output path. -/
def encode (e : GIFEncoder) (fs : FSState) : FSState × Option String :=
  if e.frames.length = 0 then (fs, some "no frames to encode")
  else
    match osCreate fs e.outputPath with
    | none => (fs, some "failed to create output file")
    | some fs1 =>
      match gifEncodeAll e.frames e.delays fs1.writeFails with
      | .error _ => (fs1, some "failed to encode GIF")
      | .ok bytes =>
        ({ fs1 with files := setFile fs1.files e.outputPath bytes }, none)

/-- Go `capture.Region`: an axis-aligned capture rectangle. -/
structure Region where
  x : Int
  y : Int
  width : Int
  height : Int
deriving Repr, DecidableEq

/-- Go `capture.Config`: optional region (a nil-able pointer), target FPS and
display id. -/
structure Config where
  region : Option Region
  fps : Int
  displayID : Nat

/-- Go `capture.MockCapturer`: configuration plus lifecycle state. The two
channels and the spawned goroutine are embedded as flags: `stopClosed` says
`close(m.stopChan)` has happened, `loopActive` says a `captureLoop` goroutine
spawned by `Start` has not yet returned. The mutex `mu` makes the bodies of
`Start`, `Stop` and `IsRunning` atomic, which is why they are embedded as
atomic state transformers. -/
structure MockState where
  config : Config
  isRunning : Bool
  stopClosed : Bool
  loopActive : Bool
  frameWidth : Int
  frameHeight : Int
  frameColor : Color
  framesToSend : Int
  simulateError : Option String
  frameDelay : Int

/-- Go `capture.NewMockCapturer`: fresh channels (nothing closed, no loop),
640×480 gray frames, `FramesToSend = -1` (infinite), 10 ms frame delay. -/
def newMockCapturer (config : Config) : MockState :=
  { config := config
    isRunning := false
    stopClosed := false
    loopActive := false
    frameWidth := 640
    frameHeight := 480
    frameColor := ⟨128, 128, 128, 255⟩
    framesToSend := -1
    simulateError := none
    frameDelay := 10 }

/-- Go `MockCapturer.Start` (body atomic under `m.mu`): fails with the
`capturer already running` error when active, fails with the configured
simulated error when one is set, and otherwise marks the capturer running and
spawns `captureLoop`. The pair returns the (possibly updated) receiver and
the returned error. -/
def MockState.start (m : MockState) : MockState × Option String :=
  if m.isRunning then (m, some "capturer already running")
  else
    match m.simulateError with
    | some e => (m, some e)
    | none => ({ m with isRunning := true, loopActive := true }, none)

/-- Go `MockCapturer.Stop` (body atomic under `m.mu`): fails with the
`capturer not running` error when inactive; otherwise closes `stopChan` and
clears the running flag. Go's `close` on an already-closed channel panics,
embedded as `none`; the `isRunning` guard keeps the stop-after-stop path away
from that panic. -/
def MockState.stop (m : MockState) : Option (MockState × Option String) :=
  if m.isRunning then
    if m.stopClosed then none
    else some ({ m with stopClosed := true, isRunning := false }, none)
  else some (m, some "capturer not running")

/-- Go `MockCapturer.IsRunning` (body atomic under `m.mu`). -/
def MockState.running (m : MockState) : Bool :=
  m.isRunning

/-- Go `MockCapturer.generateFrame`: a solid-color RGBA raster whose size is
the configured region's when one is set and the mock's default size
otherwise, stamped with the capture instant (embedded as the tick count `t`
standing for `time.Now()`). -/
def generateFrame (m : MockState) (t : Int) : Frame :=
  let width := match m.config.region with
    | some reg => reg.width
    | none => m.frameWidth
  let height := match m.config.region with
    | some reg => reg.height
    | none => m.frameHeight
  let img : RGBA := { rect := mkRect 0 0 width height
                      pix := fun _ _ => m.frameColor }
  { image := some img, timestamp := t }

/-- Go `MockCapturer.captureLoop` body, specialised to a finite budget
`FramesToSend = framesToSend ≥ 0` with no stop signal arriving (the
configuration claim C6 exercises): each ticker tick first checks
`FramesToSend >= 0 && frameCount >= FramesToSend` and returns when the budget
is reached, otherwise generates and sends one frame and increments
`frameCount`. The tick count doubles as the `time.Now()` stamp of the frame
produced at that tick. -/
def captureLoopFrom (m : MockState) (framesToSend frameCount : Nat) :
    List Frame :=
  if h : framesToSend ≤ frameCount then []
  else
    generateFrame m frameCount :: captureLoopFrom m framesToSend (frameCount + 1)
termination_by framesToSend - frameCount
decreasing_by omega

/-- Outcome of a terminated `captureLoop`: the frames sent, and whether the
deferred `close(m.frames)` / `close(m.errors)` ran (they run on every return
path, so both fields are `true` at the single exit). -/
structure LoopResult where
  emitted : List Frame
  framesClosed : Bool
  errorsClosed : Bool

/-- Go `MockCapturer.captureLoop` under a finite frame budget and no stop
signal: the emitted sequence together with the deferred channel closes that
run when the loop returns. -/
def captureLoop (m : MockState) (framesToSend : Nat) : LoopResult :=
  { emitted := captureLoopFrom m framesToSend 0
    framesClosed := true
    errorsClosed := true }

/-- Interleaving semantics for the concurrent mock capturer: one atomic step
of either an API caller or the capture goroutine. `Start` and `Stop` bodies
are single steps because they hold `m.mu` for their whole body. A loop tick
(sending one frame) leaves the flags unchanged; the loop exits (its deferred
closes running) after observing the stop signal or exhausting its budget. -/
inductive MockStep : MockState → MockState → Prop
  | start (m : MockState) : MockStep m (MockState.start m).1
  | stop (m m' : MockState) (e : Option String)
      (h : MockState.stop m = some (m', e)) : MockStep m m'
  | loopTick (m : MockState) (h : m.loopActive = true) : MockStep m m
  | loopExit (m : MockState) (h : m.loopActive = true) :
      MockStep m { m with loopActive := false }

/-- States of the mock capturer reachable from construction by interleaved
atomic steps. -/
def MockReachable (cfg : Config) (m : MockState) : Prop :=
  Relation.ReflTransGen MockStep (newMockCapturer cfg) m

/-- Predicate for the hazardous state claim C9 rules out: the capture loop is
still producing (alive with no stop signal pending) although the source says
it is not running. -/
def producingWhileStopped (m : MockState) : Prop :=
  m.isRunning = false ∧ m.loopActive = true ∧ m.stopClosed = false

/-- Models the horizontal whitespace the Go `fmt` scanner skips before a
numeric verb (a newline is not skipped: in `Sscanf` a newline in the input
must match a newline in the format, and our format has none, so a newline
makes the scan fail either way). -/
def isGoSpace (c : Char) : Bool :=
  c = ' ' || c = '\t'

/-- Numeric value of an ASCII decimal digit character. -/
def digitVal (c : Char) : Nat :=
  c.toNat - 48

/-- Models the digit-accumulation loop of the Go `fmt` scanner's `%d` verb:
consume the maximal run of decimal digits, extending the accumulator in base
10, and return it with the unconsumed remainder. -/
def scanDigitsFrom : Nat → List Char → Nat × List Char
  | acc, [] => (acc, [])
  | acc, c :: cs =>
    if c.isDigit then scanDigitsFrom (acc * 10 + digitVal c) cs
    else (acc, c :: cs)

/-- Models the unsigned-number part of the Go `%d` verb: at least one decimal
digit is required, then the maximal digit run is consumed. -/
def scanNat : List Char → Option (Nat × List Char)
  | [] => none
  | c :: cs =>
    if c.isDigit then some (scanDigitsFrom (digitVal c) cs) else none

/-- Models the Go `fmt` scanner's `%d` verb: skip leading horizontal space,
accept an optional `-` or `+` sign, then require a decimal number. -/
def scanInt (s : List Char) : Option (Int × List Char) :=
  match s.dropWhile isGoSpace with
  | [] => none
  | c :: cs =>
    if c = '-' then (scanNat cs).map fun p => (-(p.1 : Int), p.2)
    else if c = '+' then (scanNat cs).map fun p => ((p.1 : Int), p.2)
    else (scanNat (c :: cs)).map fun p => ((p.1 : Int), p.2)

/-- Models a literal (non-space) character of a Go scan format: it must match
the next input character exactly. -/
def scanLit (c : Char) : List Char → Option (List Char)
  | [] => none
  | d :: rest => if d = c then some rest else none

/-- Models `fmt.Sscanf(s, "%d,%d,%d,%d", &x, &y, &w, &h)` as called by
`ParseRegionString`: four `%d` verbs separated by literal commas. `none` is
the `err != nil` outcome (in which case Go also reports `n < 4`); on success
all four items were assigned (`n = 4`) and `Sscanf` ignores whatever input
remains, returned here as the last component. -/
def scanRegionFields (s : List Char) :
    Option (Int × Int × Int × Int × List Char) := do
  let p1 ← scanInt s
  let r2 ← scanLit ',' p1.2
  let p2 ← scanInt r2
  let r4 ← scanLit ',' p2.2
  let p3 ← scanInt r4
  let r6 ← scanLit ',' p3.2
  let p4 ← scanInt r6
  some (p1.1, p2.1, p3.1, p4.1, p4.2)

/-- Go `selector.ParseRegionString`: scan `"x,y,w,h"`, reject a failed scan
with the `invalid region format` error, reject non-positive width or height,
and otherwise build the region. -/
def ParseRegionString (s : List Char) : Except String Region :=
  match scanRegionFields s with
  | none => .error "invalid region format"
  | some (x, y, w, h, _) =>
    if w ≤ 0 ∨ h ≤ 0 then .error "width and height must be positive"
    else .ok ⟨x, y, w, h⟩

/-- Decimal digits of `n`, least significant first, with explicit fuel so the
definition is structural (the fuel `n` always suffices since `n / 10` shrinks
at least as fast as the fuel). -/
def natDigitsRevFuel : Nat → Nat → List Nat
  | 0, _ => []
  | fuel + 1, n => if n = 0 then [] else n % 10 :: natDigitsRevFuel fuel (n / 10)

/-- Decimal digits of `n`, least significant first (empty for 0). -/
def natDigitsRev (n : Nat) : List Nat :=
  natDigitsRevFuel n n

/-- Models the Go `fmt` `%d` rendering of a non-negative value: its decimal
digit characters, most significant first, with `0` rendered as `"0"`. -/
def natDecimal (n : Nat) : List Char :=
  if n = 0 then ['0'] else (natDigitsRev n).reverse.map Nat.digitChar

/-- Models the Go `fmt` `%d` rendering of an `int`: a leading `-` for
negative values, then the decimal digits of the magnitude. -/
def formatInt (n : Int) : List Char :=
  if n < 0 then '-' :: natDecimal n.natAbs else natDecimal n.toNat

/-- Go `selector.FormatRegionString`: a nil region renders as the empty
string, otherwise `fmt.Sprintf("%d,%d,%d,%d", r.X, r.Y, r.Width, r.Height)`. -/
def FormatRegionString (r : Option Region) : List Char :=
  match r with
  | none => []
  | some r =>
    formatInt r.x ++ ',' ::
      (formatInt r.y ++ ',' :: (formatInt r.width ++ ',' :: formatInt r.height))

/-- Splitting an input into its comma-separated fields, the claim-side notion
C8 speaks about (`none` of the repository's code splits this way; the
definition only states the claim). -/
def splitFields : List Char → List (List Char)
  | [] => [[]]
  | c :: cs =>
    let rest := splitFields cs
    if c = ',' then [] :: rest
    else
      match rest with
      | [] => [[c]]
      | f :: fs => (c :: f) :: fs

/-- Claim-side notion of a numeric field for C8: an optional sign followed by
one or more decimal digits and nothing else. -/
def isNumericField (f : List Char) : Bool :=
  let body := match f with
    | '-' :: rest => rest
    | '+' :: rest => rest
    | other => other
  body ≠ [] && body.all Char.isDigit

/-- Concrete sample rectangle used by the witness theorems. -/
def sampleRect : Rectangle := mkRect 0 0 4 4

/-- Concrete sample RGBA raster used by the witness theorems. -/
def sampleRGBA : RGBA := newRGBA sampleRect

/-- Concrete low-quality encoder state used by the witness theorems. -/
def sampleEncoderLow : GIFEncoder := ⟨QualityLow, 6, "out.gif", [], []⟩

/-- Concrete encoder state holding one buffered frame, used by the witness
theorems. -/
def sampleEncoderOneFrame : GIFEncoder :=
  ⟨QualityMedium, 6, "out.gif", [newPaletted sampleRect plan9], [6]⟩

/-- Concrete empty filesystem whose destination is creatable and writable,
used by the witness theorems. -/
def sampleFS : FSState := ⟨[], false, false⟩

/-- Concrete capture configuration used by the witness theorems. -/
def sampleConfig : Config := ⟨none, 30, 0⟩

/-- Concrete freshly constructed mock capturer used by the witness theorems. -/
def sampleMock : MockState := newMockCapturer sampleConfig

/-!
Theorems.  Each claim of the specification gets one theorem, preceded by
helper lemmas where needed.
-/

/-- Helper: for a non-zero fps the constructor succeeds and its delay is
exactly `max 1 (100 tdiv fps)`. -/
theorem newGIFEncoder_delay (path : String) (fps : Int) (q : GIFQuality)
    (h : fps ≠ 0) :
    newGIFEncoder path fps q =
      some ⟨q, max 1 (Int.tdiv 100 fps), path, [], []⟩ := by
  have hmax : (if Int.tdiv 100 fps < 1 then (1 : Int) else Int.tdiv 100 fps) =
      max 1 (Int.tdiv 100 fps) := by
    by_cases hlt : Int.tdiv 100 fps < 1
    · rw [if_pos hlt]
      exact (max_eq_left (le_of_lt hlt)).symm
    · rw [if_neg hlt]
      exact (max_eq_right (le_of_not_lt hlt)).symm
  simp [newGIFEncoder, goDiv, h, hmax]

/-- C1: for every fps in `[1, 200]` the constructor's per-frame delay equals
`max 1 (floor (100 / fps))` hundredths of a second (Go's truncating division
is the floor here since both operands are positive); fps 15, 30 and 200 give
delays 6, 3 and 1; and every successful `AddFrame` appends exactly the
precomputed delay, so the delay is applied uniformly to every frame added. -/
theorem c1_frame_delay (fps : Int) (h1 : 1 ≤ fps) (h2 : fps ≤ 200)
    (path : String) (q : GIFQuality) :
    (∃ e, newGIFEncoder path fps q = some e ∧
      e.delay = max 1 (Int.tdiv 100 fps)) ∧
    ((newGIFEncoder path 15 q).map GIFEncoder.delay = some 6 ∧
     (newGIFEncoder path 30 q).map GIFEncoder.delay = some 3 ∧
     (newGIFEncoder path 200 q).map GIFEncoder.delay = some 1) ∧
    (∀ (e : GIFEncoder) (fr : Option Frame) (e' : GIFEncoder),
      addFrame e fr = (e', none) →
      e'.delay = e.delay ∧ e'.delays = e.delays ++ [e.delay] ∧
      ((∀ d ∈ e.delays, d = e.delay) → ∀ d ∈ e'.delays, d = e'.delay)) := by
  have hne : fps ≠ 0 := by omega
  refine ⟨⟨_, newGIFEncoder_delay path fps q hne, rfl⟩, ⟨?_, ?_, ?_⟩, ?_⟩
  · rw [newGIFEncoder_delay path 15 q (by decide)]
    show some (max 1 (Int.tdiv 100 15)) = some 6
    decide
  · rw [newGIFEncoder_delay path 30 q (by decide)]
    show some (max 1 (Int.tdiv 100 30)) = some 3
    decide
  · rw [newGIFEncoder_delay path 200 q (by decide)]
    show some (max 1 (Int.tdiv 100 200)) = some 1
    decide
  · intro e fr e' h
    match fr with
    | none => simp [addFrame] at h
    | some f =>
      match hf : f.image with
      | none => simp [addFrame, hf] at h
      | some img =>
        simp only [addFrame, hf] at h
        injection h with hfst hsnd
        subst hfst
        refine ⟨rfl, rfl, ?_⟩
        intro hall d hd
        rcases List.mem_append.mp hd with hmem | hmem
        · exact hall d hmem
        · simpa using hmem

/-- Witness for C1: fps 15 is in range and yields an encoder whose delay is
`max 1 (100 tdiv 15)`. -/
theorem c1_frame_delay_witness :
    ∃ e, newGIFEncoder "out.gif" 15 QualityMedium = some e ∧
      e.delay = max 1 (Int.tdiv 100 15) :=
  (c1_frame_delay 15 (by decide) (by decide) "out.gif" QualityMedium).1

/-- C10: with `fps ≥ 1` the delay computation is total and yields at least 1;
with `fps = 0` the unguarded division makes construction undefined (Go
panics: division by zero), embedded as `none`. -/
theorem c10_delay_safety :
    (∀ (fps : Int), 1 ≤ fps → ∀ (path : String) (q : GIFQuality),
      ∃ e, newGIFEncoder path fps q = some e ∧ 1 ≤ e.delay) ∧
    (∀ (path : String) (q : GIFQuality), newGIFEncoder path 0 q = none) := by
  constructor
  · intro fps h path q
    refine ⟨_, newGIFEncoder_delay path fps q (by omega), ?_⟩
    exact le_max_left 1 _
  · intro path q
    simp [newGIFEncoder, goDiv]

/-- Witness for C10: fps 7 satisfies the precondition and construction
succeeds with a positive delay. -/
theorem c10_delay_safety_witness :
    ∃ e, newGIFEncoder "out.gif" 7 QualityLow = some e ∧ 1 ≤ e.delay :=
  c10_delay_safety.1 7 (by decide) "out.gif" QualityLow

/-- C4: `AddFrame` of a nil frame, or of a frame carrying a nil image, fails
with the `invalid frame` error and returns the encoder unchanged (so the
buffered frame count is unchanged); a valid frame succeeds and increases
`FrameCount` by exactly one. -/
theorem c4_addFrame_validation (e : GIFEncoder) :
    (addFrame e none = (e, some "invalid frame")) ∧
    (∀ ts, addFrame e (some ⟨none, ts⟩) = (e, some "invalid frame")) ∧
    (∀ img ts,
      (addFrame e (some ⟨some img, ts⟩)).2 = none ∧
      frameCount (addFrame e (some ⟨some img, ts⟩)).1 = frameCount e + 1) := by
  refine ⟨rfl, fun ts => rfl, fun img ts => ⟨rfl, ?_⟩⟩
  simp [addFrame, frameCount]

/-- Witness for C4 at a concrete encoder: the nil frame is rejected with the
encoder untouched, and a valid frame raises the count from 0 to 1. -/
theorem c4_addFrame_validation_witness :
    addFrame sampleEncoderLow none = (sampleEncoderLow, some "invalid frame") ∧
    frameCount (addFrame sampleEncoderLow (some ⟨some sampleRGBA, 0⟩)).1 =
      frameCount sampleEncoderLow + 1 :=
  ⟨(c4_addFrame_validation sampleEncoderLow).1,
   ((c4_addFrame_validation sampleEncoderLow).2.2 sampleRGBA 0).2⟩

/-- Helper: looking up a path right after writing it returns the written
contents. -/
theorem lookupFile_setFile (files : List (String × List Nat)) (path : String)
    (contents : List Nat) :
    lookupFile (setFile files path contents) path = some contents := by
  induction files with
  | nil => simp [setFile, lookupFile]
  | cons pc rest ih =>
    by_cases h : pc.1 = path
    · simp [setFile, lookupFile, h]
    · simp [setFile, lookupFile, h, ih]

/-- C5: `Encode` on an empty buffer fails with the `no frames to encode`
error and leaves the filesystem untouched (no artifact is produced); with at
least one buffered frame it fails with the creation error when the
destination cannot be created (filesystem again untouched), fails with the
`failed to encode GIF` error when the destination cannot be written (the
`gif.EncodeAll` error branch), and otherwise — every buffered frame fitting
the GIF format's 16-bit extents — succeeds and leaves a non-empty file at
the destination. -/
theorem c5_encode_behavior (e : GIFEncoder) (fs : FSState) :
    (e.frames = [] → encode e fs = (fs, some "no frames to encode")) ∧
    (e.frames ≠ [] → fs.createFails = true →
      encode e fs = (fs, some "failed to create output file")) ∧
    (e.frames ≠ [] → fs.createFails = false → fs.writeFails = true →
      (encode e fs).2 = some "failed to encode GIF") ∧
    (e.frames ≠ [] → fs.createFails = false → fs.writeFails = false →
      e.frames.all (fun p => !frameTooLarge p) = true →
      (encode e fs).2 = none ∧
      ∃ bytes, lookupFile (encode e fs).1.files e.outputPath = some bytes ∧
        bytes ≠ []) := by
  refine ⟨?_, ?_, ?_, ?_⟩
  · intro h
    simp [encode, h]
  · intro h hcf
    have hlen : e.frames.length ≠ 0 := by simpa using h
    simp [encode, hlen, osCreate, hcf]
  · intro h hcf hwf
    have hlen : e.frames.length ≠ 0 := by simpa using h
    simp [encode, hlen, osCreate, hcf, gifEncodeAll, hwf]
  · intro h hcf hwf hall
    have hlen : e.frames.length ≠ 0 := by simpa using h
    have hany : e.frames.any frameTooLarge = false := by
      cases hq : e.frames.any frameTooLarge
      · rfl
      · exfalso
        obtain ⟨p, hp, hptl⟩ := List.any_eq_true.mp hq
        have hfp := List.all_eq_true.mp hall p hp
        rw [hptl] at hfp
        exact absurd hfp (by decide)
    have hok : gifEncodeAll e.frames e.delays fs.writeFails =
        .ok ([0x47, 0x49, 0x46, 0x38, 0x39, 0x61] ++
          e.frames.map (fun _ => 0x2C) ++ [0x3B]) := by
      simp [gifEncodeAll, hwf, hany]
    refine ⟨?_, [0x47, 0x49, 0x46, 0x38, 0x39, 0x61] ++
      e.frames.map (fun _ => 0x2C) ++ [0x3B], ?_, by simp⟩
    · simp [encode, hlen, osCreate, hcf, hok]
    · have henc : (encode e fs).1.files =
          setFile (setFile fs.files e.outputPath []) e.outputPath
            ([0x47, 0x49, 0x46, 0x38, 0x39, 0x61] ++
              e.frames.map (fun _ => 0x2C) ++ [0x3B]) := by
        simp [encode, hlen, osCreate, hcf, hok]
      rw [henc]
      exact lookupFile_setFile _ _ _

/-- Witness for C5: the one-frame sample encoder (a 4×4 frame) on a creatable
and writable filesystem encodes without error and leaves a non-empty file at
`out.gif`. -/
theorem c5_encode_behavior_witness :
    (encode sampleEncoderOneFrame sampleFS).2 = none ∧
    ∃ bytes,
      lookupFile (encode sampleEncoderOneFrame sampleFS).1.files
        sampleEncoderOneFrame.outputPath = some bytes ∧ bytes ≠ [] :=
  (c5_encode_behavior sampleEncoderOneFrame sampleFS).2.2.2
    (by simp [sampleEncoderOneFrame]) rfl rfl (by decide)

set_option maxRecDepth 8192 in
/-- Helper: the Plan9 palette model has 256 entries. -/
theorem plan9_length : plan9.length = 256 := by decide

set_option maxRecDepth 8192 in
/-- Helper: the WebSafe palette model has 216 entries. -/
theorem webSafe_length : webSafe.length = 216 := by decide

/-- C3: quantization is total, preserves the input bounds exactly, and uses
the palette selected by the quality level, whose size is 64 for `Low` (hence
at most 64 colors), 256 for `Medium` and 216 for `High`. -/
theorem c3_quantization (e : GIFEncoder) (img : RGBA) :
    (convertToPaletted e img).rect = img.rect ∧
    (convertToPaletted e img).palette = getPalette e ∧
    (e.quality = QualityLow → (getPalette e).length = 64) ∧
    (e.quality = QualityMedium → (getPalette e).length = 256) ∧
    (e.quality = QualityHigh → (getPalette e).length = 216) := by
  refine ⟨rfl, rfl, ?_, ?_, ?_⟩
  · intro h
    simp [getPalette, h, QualityLow, List.length_take, plan9_length]
  · intro h
    simp [getPalette, h, QualityLow, QualityMedium, plan9_length]
  · intro h
    simp [getPalette, h, QualityLow, QualityMedium, QualityHigh,
      webSafe_length]

/-- Witness for C3 at the concrete low-quality encoder and sample raster:
bounds are preserved and the low palette has exactly 64 colors. -/
theorem c3_quantization_witness :
    (convertToPaletted sampleEncoderLow sampleRGBA).rect = sampleRGBA.rect ∧
    (getPalette sampleEncoderLow).length = 64 :=
  ⟨(c3_quantization sampleEncoderLow sampleRGBA).1,
   (c3_quantization sampleEncoderLow sampleRGBA).2.2.1 rfl⟩

/-- Helper: the capture loop started at tick `k` with budget `k + d` emits
exactly the frames of ticks `k, …, k + d - 1`, in order. -/
theorem captureLoopFrom_spec (m : MockState) :
    ∀ (d k : Nat), captureLoopFrom m (k + d) k =
      (List.range' k d).map (fun i : Nat => generateFrame m (i : Int)) := by
  intro d
  induction d with
  | zero =>
    intro k
    rw [captureLoopFrom]
    simp
  | succ d ih =>
    intro k
    rw [captureLoopFrom]
    rw [dif_neg (by omega)]
    have h2 : k + (d + 1) = (k + 1) + d := by omega
    rw [h2, ih (k + 1)]
    simp [List.range'_succ]

/-- C6: a source configured to emit exactly `n` frames delivers exactly the
`n` frames of ticks `0, …, n-1` on its frame stream, in production order
(strictly increasing timestamps), and then closes both the frame stream and
the error stream; hence a consumer draining until closure sees no more than
`n` frames. -/
theorem c6_frame_budget (m : MockState) (n : Nat) :
    (captureLoop m n).emitted =
      (List.range n).map (fun i : Nat => generateFrame m (i : Int)) ∧
    (captureLoop m n).emitted.length = n ∧
    (captureLoop m n).framesClosed = true ∧
    (captureLoop m n).errorsClosed = true ∧
    ((captureLoop m n).emitted.map Frame.timestamp).Pairwise (· < ·) := by
  have he : (captureLoop m n).emitted =
      (List.range n).map (fun i : Nat => generateFrame m (i : Int)) := by
    show captureLoopFrom m n 0 = _
    conv_lhs => rw [show n = 0 + n by omega]
    rw [captureLoopFrom_spec m n 0, List.range_eq_range']
  refine ⟨he, ?_, rfl, rfl, ?_⟩
  · rw [he]; simp
  · rw [he, List.map_map]
    have hcomp : (Frame.timestamp ∘ fun i : Nat => generateFrame m (i : Int)) =
        fun i : Nat => (i : Int) := rfl
    rw [hcomp, List.pairwise_map]
    exact (List.pairwise_lt_range n).imp (fun h => by exact_mod_cast h)

/-- Witness for C6: the sample mock with a budget of 5 frames emits exactly
5 frames and closes both streams. -/
theorem c6_frame_budget_witness :
    (captureLoop sampleMock 5).emitted.length = 5 ∧
    (captureLoop sampleMock 5).framesClosed = true :=
  ⟨(c6_frame_budget sampleMock 5).2.1, (c6_frame_budget sampleMock 5).2.2.1⟩

/-- C7: `Start` on an active source fails with the `capturer already running`
error; `Stop` on an inactive source — including a second `Stop` right after a
successful one — fails with the `capturer not running` error; and a
successful `Start` followed by a `Stop` that returns always returns success
and leaves the source not running. -/
theorem c7_lifecycle (m : MockState) :
    (m.isRunning = true →
      MockState.start m = (m, some "capturer already running")) ∧
    (m.isRunning = false →
      MockState.stop m = some (m, some "capturer not running")) ∧
    (∀ m', MockState.start m = (m', none) →
      ∀ p, MockState.stop m' = some p →
        p.2 = none ∧ p.1.isRunning = false ∧
        MockState.stop p.1 = some (p.1, some "capturer not running")) := by
  refine ⟨?_, ?_, ?_⟩
  · intro h
    simp [MockState.start, h]
  · intro h
    simp [MockState.stop, h]
  · intro m' hstart p hstop
    by_cases hr : m.isRunning = true
    · simp [MockState.start, hr] at hstart
    · simp only [Bool.not_eq_true] at hr
      cases hse : m.simulateError with
      | some e => simp [MockState.start, hr, hse] at hstart
      | none =>
        simp only [MockState.start, hr, hse, Bool.false_eq_true,
          if_false] at hstart
        injection hstart with hfst hsnd
        subst hfst
        by_cases hsc : m.stopClosed = true
        · simp [MockState.stop, hsc] at hstop
        · simp only [Bool.not_eq_true] at hsc
          simp only [MockState.stop, hsc, Bool.false_eq_true, if_false,
            if_true, Option.some.injEq] at hstop
          subst hstop
          refine ⟨rfl, rfl, ?_⟩
          simp [MockState.stop]

/-- Witness for C7 at the freshly constructed sample mock: stopping before
starting fails with `capturer not running`, and a start followed by a stop
returns success and leaves the source not running. -/
theorem c7_lifecycle_witness :
    MockState.stop sampleMock = some (sampleMock, some "capturer not running") ∧
    ∃ p, MockState.stop (MockState.start sampleMock).1 = some p ∧
      p.2 = none ∧ p.1.isRunning = false := by
  refine ⟨(c7_lifecycle sampleMock).2.1 rfl, ?_⟩
  have h := (c7_lifecycle sampleMock).2.2 (MockState.start sampleMock).1 rfl
  exact ⟨_, rfl, (h _ rfl).1, (h _ rfl).2.1⟩

/-- C9: the mutex around `isRunning` serializes `Start` and `Stop`, so two
concurrent `Start` calls cannot both succeed (after one succeeds the other
fails with `capturer already running`), a `Start` and a `Stop` racing from
the same state cannot both succeed, and no state reachable by any
interleaving of the atomic operations and loop steps is simultaneously "not
running" and "producing frames". -/
theorem c9_concurrency :
    (∀ m : MockState, (MockState.start m).2 = none →
      (MockState.start (MockState.start m).1).2 =
        some "capturer already running") ∧
    (∀ m : MockState, (MockState.start m).2 = none →
      MockState.stop m = some (m, some "capturer not running")) ∧
    (∀ (cfg : Config) (m : MockState), MockReachable cfg m →
      ¬ producingWhileStopped m) := by
  have hstart : ∀ m : MockState, (MockState.start m).2 = none →
      m.isRunning = false ∧ m.simulateError = none ∧
      (MockState.start m).1 = { m with isRunning := true, loopActive := true } := by
    intro m h
    by_cases hr : m.isRunning = true
    · simp [MockState.start, hr] at h
    · simp only [Bool.not_eq_true] at hr
      cases hse : m.simulateError with
      | some e => simp [MockState.start, hr, hse] at h
      | none => exact ⟨hr, rfl, by simp [MockState.start, hr, hse]⟩
  refine ⟨?_, ?_, ?_⟩
  · intro m h
    rw [(hstart m h).2.2]
    simp [MockState.start]
  · intro m h
    simp [MockState.stop, (hstart m h).1]
  · intro cfg m h
    induction h with
    | refl => simp [producingWhileStopped, newMockCapturer]
    | tail hab hbc ih =>
      rename_i b c
      cases hbc with
      | start =>
        by_cases hr : b.isRunning = true
        · simpa [MockState.start, hr] using ih
        · simp only [Bool.not_eq_true] at hr
          cases hse : b.simulateError with
          | some e => simpa [MockState.start, hr, hse] using ih
          | none => simp [producingWhileStopped, MockState.start, hr, hse]
      | stop m' e hstop =>
        by_cases hr : b.isRunning = true
        · by_cases hsc : b.stopClosed = true
          · simp [MockState.stop, hr, hsc] at hstop
          · simp only [Bool.not_eq_true] at hsc
            simp only [MockState.stop, hr, hsc, Bool.false_eq_true, if_false,
              if_true, Option.some.injEq] at hstop
            obtain ⟨hm', -⟩ := Prod.mk.injEq _ _ _ _ ▸ hstop
            simp [producingWhileStopped, ← hm']
        · simp only [Bool.not_eq_true] at hr
          simp only [MockState.stop, hr, Bool.false_eq_true, if_false,
            Option.some.injEq] at hstop
          obtain ⟨hm', -⟩ := Prod.mk.injEq _ _ _ _ ▸ hstop
          rw [← hm']
          exact ih
      | loopTick him => exact ih
      | loopExit him => simp [producingWhileStopped]

/-- Witness for C9: at the freshly constructed sample mock a first `Start`
succeeds, so a second concurrent `Start` fails; and the initial state is not
producing-while-stopped (it is reachable by the empty interleaving). -/
theorem c9_concurrency_witness :
    (MockState.start (MockState.start sampleMock).1).2 =
      some "capturer already running" ∧
    ¬ producingWhileStopped sampleMock :=
  ⟨c9_concurrency.1 sampleMock rfl,
   c9_concurrency.2.2 sampleConfig sampleMock Relation.ReflTransGen.refl⟩

/-- Helper: every entry of the fuel-based digit list is a decimal digit. -/
theorem natDigitsRevFuel_lt (fuel : Nat) :
    ∀ n, ∀ d ∈ natDigitsRevFuel fuel n, d < 10 := by
  induction fuel with
  | zero => intro n d hd; simp [natDigitsRevFuel] at hd
  | succ fuel ih =>
    intro n d hd
    by_cases h0 : n = 0
    · simp [natDigitsRevFuel, h0] at hd
    · rw [natDigitsRevFuel, if_neg h0] at hd
      rcases List.mem_cons.mp hd with h1 | h1
      · omega
      · exact ih (n / 10) d h1

/-- Helper: reading the fuel-based digit list back in base 10 (least
significant digit first) recovers the number, whenever the fuel suffices. -/
theorem natDigitsRevFuel_val (fuel : Nat) :
    ∀ n, n ≤ fuel →
      List.foldr (fun d a => a * 10 + d) 0 (natDigitsRevFuel fuel n) = n := by
  induction fuel with
  | zero =>
    intro n h
    interval_cases n
    simp [natDigitsRevFuel]
  | succ fuel ih =>
    intro n h
    by_cases h0 : n = 0
    · simp [natDigitsRevFuel, h0]
    · rw [natDigitsRevFuel, if_neg h0]
      simp only [List.foldr_cons]
      rw [ih (n / 10) (by omega)]
      omega

/-- Helper: the character of a decimal digit is a digit character. -/
theorem digitChar_isDigit (d : Nat) (h : d < 10) :
    (Nat.digitChar d).isDigit = true := by
  interval_cases d <;> decide

/-- Helper: `digitVal` inverts `Nat.digitChar` on decimal digits. -/
theorem digitVal_digitChar (d : Nat) (h : d < 10) :
    digitVal (Nat.digitChar d) = d := by
  interval_cases d <;> decide

/-- Helper: a digit character is not scanner whitespace. -/
theorem isDigit_not_space (c : Char) (h : c.isDigit = true) :
    isGoSpace c = false := by
  by_cases h1 : c = ' '
  · subst h1; exact absurd h (by decide)
  · by_cases h2 : c = '\t'
    · subst h2; exact absurd h (by decide)
    · simp [isGoSpace, h1, h2]

/-- Helper: a digit character is not the minus sign. -/
theorem isDigit_ne_minus (c : Char) (h : c.isDigit = true) : c ≠ '-' := by
  intro he
  subst he
  exact absurd h (by decide)

/-- Helper: a digit character is not the plus sign. -/
theorem isDigit_ne_plus (c : Char) (h : c.isDigit = true) : c ≠ '+' := by
  intro he
  subst he
  exact absurd h (by decide)

/-- Helper: the digit loop consumes exactly a leading all-digit block when
the remainder starts with a non-digit (or is empty), folding the digits onto
the accumulator. -/
theorem scanDigitsFrom_digits (ds : List Char)
    (hds : ∀ c ∈ ds, c.isDigit = true) (rest : List Char)
    (hrest : ∀ c cs, rest = c :: cs → c.isDigit = false) :
    ∀ acc, scanDigitsFrom acc (ds ++ rest) =
      (List.foldl (fun a c => a * 10 + digitVal c) acc ds, rest) := by
  induction ds with
  | nil =>
    intro acc
    simp only [List.nil_append, List.foldl_nil]
    cases rest with
    | nil => rfl
    | cons c cs =>
      have hc : c.isDigit = false := hrest c cs rfl
      simp [scanDigitsFrom, hc]
  | cons d ds ih =>
    intro acc
    have hd : d.isDigit = true := hds d (by simp)
    simp only [List.cons_append, scanDigitsFrom, hd, if_true,
      List.foldl_cons]
    exact ih (fun c hc => hds c (by simp [hc])) (acc * 10 + digitVal d)

/-- Helper: `scanNat` on a non-empty all-digit block followed by a non-digit
boundary returns the block's base-10 value and the boundary. -/
theorem scanNat_digits (ds : List Char) (hne : ds ≠ [])
    (hds : ∀ c ∈ ds, c.isDigit = true) (rest : List Char)
    (hrest : ∀ c cs, rest = c :: cs → c.isDigit = false) :
    scanNat (ds ++ rest) =
      some (List.foldl (fun a c => a * 10 + digitVal c) 0 ds, rest) := by
  cases ds with
  | nil => exact absurd rfl hne
  | cons d ds =>
    have hd : d.isDigit = true := hds d (by simp)
    simp only [List.cons_append, scanNat, hd, if_true]
    rw [scanDigitsFrom_digits ds (fun c hc => hds c (by simp [hc])) rest hrest]
    simp only [List.foldl_cons, Option.some.injEq]
    have hz : 0 * 10 + digitVal d = digitVal d := by omega
    rw [hz]

/-- Helper: every character of a rendered decimal number is a digit. -/
theorem natDecimal_all_digits (n : Nat) :
    ∀ c ∈ natDecimal n, c.isDigit = true := by
  intro c hc
  by_cases h : n = 0
  · simp [natDecimal, h] at hc
    subst hc
    decide
  · rw [natDecimal, if_neg h] at hc
    obtain ⟨d, hd, rfl⟩ := List.mem_map.mp hc
    exact digitChar_isDigit d
      (natDigitsRevFuel_lt n n d (List.mem_reverse.mp hd))

/-- Helper: a rendered decimal number is never the empty string. -/
theorem natDecimal_ne_nil (n : Nat) : natDecimal n ≠ [] := by
  by_cases h : n = 0
  · simp [natDecimal, h]
  · rw [natDecimal, if_neg h]
    have hrev : natDigitsRev n ≠ [] := by
      unfold natDigitsRev
      cases n with
      | zero => exact absurd rfl h
      | succ k =>
        rw [natDigitsRevFuel, if_neg h]
        simp
    simp [hrev]

/-- Helper: replacing each digit by its character and back changes nothing in
the base-10 fold. -/
theorem foldr_digitChar_val (L : List Nat) (hL : ∀ d ∈ L, d < 10) :
    List.foldr (fun d a => a * 10 + digitVal (Nat.digitChar d)) 0 L =
      List.foldr (fun d a => a * 10 + d) 0 L := by
  induction L with
  | nil => rfl
  | cons d L ih =>
    simp only [List.foldr_cons]
    rw [ih (fun x hx => hL x (by simp [hx])),
      digitVal_digitChar d (hL d (by simp))]

/-- Helper: scanning the decimal rendering of `n` from the most significant
digit recovers `n`. -/
theorem natDecimal_val (n : Nat) :
    List.foldl (fun a c => a * 10 + digitVal c) 0 (natDecimal n) = n := by
  by_cases h : n = 0
  · subst h
    decide
  · rw [natDecimal, if_neg h, List.map_reverse, List.foldl_reverse,
      List.foldr_map]
    rw [foldr_digitChar_val (natDigitsRev n) (natDigitsRevFuel_lt n n)]
    exact natDigitsRevFuel_val n n le_rfl

/-- Helper: `scanNat` reads back a rendered decimal number exactly, leaving a
non-digit-headed remainder untouched. -/
theorem scanNat_natDecimal (n : Nat) (rest : List Char)
    (hrest : ∀ c cs, rest = c :: cs → c.isDigit = false) :
    scanNat (natDecimal n ++ rest) = some (n, rest) := by
  rw [scanNat_digits (natDecimal n) (natDecimal_ne_nil n)
    (natDecimal_all_digits n) rest hrest, natDecimal_val n]

/-- Helper: the `%d` scanner reads back the `%d` rendering of any integer,
leaving a non-digit-headed remainder untouched. -/
theorem scanInt_formatInt (k : Int) (rest : List Char)
    (hrest : ∀ c cs, rest = c :: cs → c.isDigit = false) :
    scanInt (formatInt k ++ rest) = some (k, rest) := by
  by_cases hk : k < 0
  · rw [formatInt, if_pos hk, List.cons_append]
    have hdw : List.dropWhile isGoSpace
        ('-' :: (natDecimal k.natAbs ++ rest)) =
        '-' :: (natDecimal k.natAbs ++ rest) := by
      rw [List.dropWhile_cons]
      simp [isGoSpace]
    simp only [scanInt, hdw]
    rw [scanNat_natDecimal k.natAbs rest hrest]
    simp only [if_pos, Option.map_some', Option.some.injEq, Prod.mk.injEq,
      reduceIte]
    exact ⟨by omega, trivial⟩
  · rw [formatInt, if_neg hk]
    obtain ⟨c, cs, hcc⟩ : ∃ c cs, natDecimal k.toNat = c :: cs := by
      cases hnd : natDecimal k.toNat with
      | nil => exact absurd hnd (natDecimal_ne_nil _)
      | cons c cs => exact ⟨c, cs, rfl⟩
    have hcd : c.isDigit = true := by
      refine natDecimal_all_digits k.toNat c ?_
      rw [hcc]
      simp
    have hdw : List.dropWhile isGoSpace (natDecimal k.toNat ++ rest) =
        c :: (cs ++ rest) := by
      rw [hcc, List.cons_append, List.dropWhile_cons,
        isDigit_not_space c hcd]
      simp
    simp only [scanInt, hdw]
    rw [if_neg (isDigit_ne_minus c hcd), if_neg (isDigit_ne_plus c hcd),
      ← List.cons_append, ← hcc]
    rw [scanNat_natDecimal k.toNat rest hrest]
    simp only [Option.map_some', Option.some.injEq, Prod.mk.injEq]
    exact ⟨by omega, trivial⟩

/-- Helper: a format-literal comma consumes exactly a leading comma. -/
theorem scanLit_comma (rest : List Char) :
    scanLit ',' (',' :: rest) = some rest := by
  simp [scanLit]

/-- Helper: the boundary condition holds for a comma-headed remainder. -/
theorem comma_boundary (t : List Char) :
    ∀ c cs, (',' :: t : List Char) = c :: cs → c.isDigit = false := by
  intro c cs h
  injection h with h1 _
  subst h1
  decide

/-- Helper: the boundary condition holds vacuously for the empty remainder. -/
theorem nil_boundary :
    ∀ c cs, ([] : List Char) = c :: cs → c.isDigit = false := by
  intro c cs h
  cases h

/-- Helper: scanning the formatted region recovers all four fields with
nothing left over. -/
theorem scanRegionFields_format (x y w h : Int) :
    scanRegionFields (FormatRegionString (some ⟨x, y, w, h⟩)) =
      some (x, y, w, h, []) := by
  have h4 := scanInt_formatInt h [] nil_boundary
  rw [List.append_nil] at h4
  have h3 := scanInt_formatInt w (',' :: formatInt h) (comma_boundary _)
  have h2 := scanInt_formatInt y
    (',' :: (formatInt w ++ ',' :: formatInt h)) (comma_boundary _)
  have h1 := scanInt_formatInt x
    (',' :: (formatInt y ++ ',' :: (formatInt w ++ ',' :: formatInt h)))
    (comma_boundary _)
  simp [FormatRegionString, scanRegionFields, h1, h2, h3, h4, scanLit_comma]

/-- C2: parsing the formatted string of any region with positive width and
height round-trips: `ParseRegionString (FormatRegionString r)` succeeds and
returns a region equal to `r`. -/
theorem c2_region_roundtrip (r : Region) (hw : 0 < r.width)
    (hh : 0 < r.height) :
    ParseRegionString (FormatRegionString (some r)) = .ok r := by
  obtain ⟨x, y, w, h⟩ := r
  have hw' : 0 < w := hw
  have hh' : 0 < h := hh
  have hscan := scanRegionFields_format x y w h
  simp only [ParseRegionString, hscan]
  rw [if_neg (by omega)]

/-- Witness for C2 at the concrete region `(7, -3, 10, 20)`. -/
theorem c2_region_roundtrip_witness :
    ParseRegionString (FormatRegionString (some ⟨7, -3, 10, 20⟩)) =
      .ok ⟨7, -3, 10, 20⟩ :=
  c2_region_roundtrip ⟨7, -3, 10, 20⟩ (by decide) (by decide)

/-- Counterexample to C8 as stated: the input `"1,2,3,4x"` has a non-numeric
fourth comma-separated field (`"4x"`), yet `ParseRegionString` accepts it and
returns the region `(1, 2, 3, 4)` — the scanner stops after the fourth
integer and ignores the rest, so not every input with a non-numeric fourth
field is rejected. -/
theorem c8_counterexample :
    ParseRegionString ("1,2,3,4x".data) = .ok ⟨1, 2, 3, 4⟩ ∧
    isNumericField ((splitFields ("1,2,3,4x".data)).getD 3 []) = false := by
  exact ⟨rfl, rfl⟩

/-- Helper: appending input after the scanned region extends the digit loop's
leftover without disturbing the value already read. -/
theorem scanDigitsFrom_append (s u : List Char) :
    ∀ acc, scanDigitsFrom acc (s ++ u) =
      if (scanDigitsFrom acc s).2 = [] then
        scanDigitsFrom (scanDigitsFrom acc s).1 u
      else ((scanDigitsFrom acc s).1, (scanDigitsFrom acc s).2 ++ u) := by
  induction s with
  | nil => intro acc; simp [scanDigitsFrom]
  | cons c cs ih =>
    intro acc
    by_cases hc : c.isDigit = true
    · simp only [List.cons_append, scanDigitsFrom, hc, if_true]
      exact ih (acc * 10 + digitVal c)
    · simp [scanDigitsFrom, hc]

/-- Helper: `scanNat` is stable under appending a non-digit-headed suffix:
the parsed value is unchanged and the suffix lands in the leftover. -/
theorem scanNat_append (s u : List Char) (n : Nat) (r : List Char)
    (h : scanNat s = some (n, r))
    (hu : ∀ c cs, u = c :: cs → c.isDigit = false) :
    scanNat (s ++ u) = some (n, r ++ u) := by
  cases s with
  | nil => simp [scanNat] at h
  | cons c cs =>
    by_cases hc : c.isDigit = true
    · simp only [scanNat, hc, if_true, Option.some.injEq] at h
      simp only [List.cons_append, scanNat, hc, if_true, Option.some.injEq]
      rw [scanDigitsFrom_append cs u (digitVal c), h]
      by_cases hr : r = []
      · subst hr
        simp only [List.nil_append]
        rw [if_pos trivial]
        cases u with
        | nil => simp [scanDigitsFrom]
        | cons c' t => simp [scanDigitsFrom, hu c' t rfl]
      · simp [hr]
    · simp [scanNat, hc] at h

/-- Helper: dropping leading spaces commutes with appending a suffix as long
as something non-space survives in the prefix. -/
theorem dropWhile_append_of_ne_nil (p : Char → Bool) (s u : List Char)
    (h : s.dropWhile p ≠ []) :
    (s ++ u).dropWhile p = s.dropWhile p ++ u := by
  induction s with
  | nil => simp [List.dropWhile] at h
  | cons c cs ih =>
    by_cases hc : p c = true
    · simp only [List.dropWhile_cons, hc, if_true] at h
      simp only [List.cons_append, List.dropWhile_cons, hc, if_true]
      exact ih h
    · simp [List.cons_append, List.dropWhile_cons, hc]

/-- Helper: `scanInt` is stable under appending a non-digit-headed suffix. -/
theorem scanInt_append (s u : List Char) (k : Int) (r : List Char)
    (h : scanInt s = some (k, r))
    (hu : ∀ c cs, u = c :: cs → c.isDigit = false) :
    scanInt (s ++ u) = some (k, r ++ u) := by
  cases hdw : s.dropWhile isGoSpace with
  | nil => simp [scanInt, hdw] at h
  | cons c cs =>
    have hdw2 : (s ++ u).dropWhile isGoSpace = c :: (cs ++ u) := by
      rw [dropWhile_append_of_ne_nil isGoSpace s u (by rw [hdw]; simp), hdw]
      rfl
    simp only [scanInt, hdw] at h
    simp only [scanInt, hdw2]
    by_cases hm : c = '-'
    · rw [if_pos hm] at h ⊢
      cases hsn : scanNat cs with
      | none => rw [hsn] at h; cases h
      | some p =>
        rw [hsn] at h
        simp only [Option.map_some', Option.some.injEq] at h
        rw [scanNat_append cs u p.1 p.2 (by rw [hsn]) hu]
        simp only [Option.map_some', Option.some.injEq]
        rw [Prod.mk.injEq] at h
        obtain ⟨h1, h2⟩ := h
        subst h1
        subst h2
        rfl
    · rw [if_neg hm] at h ⊢
      by_cases hp : c = '+'
      · rw [if_pos hp] at h ⊢
        cases hsn : scanNat cs with
        | none => rw [hsn] at h; cases h
        | some p =>
          rw [hsn] at h
          simp only [Option.map_some', Option.some.injEq] at h
          rw [scanNat_append cs u p.1 p.2 (by rw [hsn]) hu]
          simp only [Option.map_some', Option.some.injEq]
          rw [Prod.mk.injEq] at h
          obtain ⟨h1, h2⟩ := h
          subst h1
          subst h2
          rfl
      · rw [if_neg hp] at h ⊢
        cases hsn : scanNat (c :: cs) with
        | none => rw [hsn] at h; cases h
        | some p =>
          rw [hsn] at h
          simp only [Option.map_some', Option.some.injEq] at h
          have := scanNat_append (c :: cs) u p.1 p.2 (by rw [hsn]) hu
          rw [List.cons_append] at this
          rw [this]
          simp only [Option.map_some', Option.some.injEq]
          rw [Prod.mk.injEq] at h
          obtain ⟨h1, h2⟩ := h
          subst h1
          subst h2
          rfl

/-- Helper: a matched literal is stable under appending a suffix. -/
theorem scanLit_append (ch : Char) (s u r : List Char)
    (h : scanLit ch s = some r) : scanLit ch (s ++ u) = some (r ++ u) := by
  cases s with
  | nil => simp [scanLit] at h
  | cons d t =>
    by_cases hd : d = ch
    · simp only [scanLit, hd, if_true, Option.some.injEq] at h
      subst h
      simp [scanLit, hd]
    · simp [scanLit, hd] at h

/-- Helper: when the four-field scan consumes its whole input, appending a
comma and arbitrary extra content leaves the same four fields and puts the
extra content in the leftover. -/
theorem scanRegionFields_append (s extra : List Char) (x y w h : Int)
    (hscan : scanRegionFields s = some (x, y, w, h, [])) :
    scanRegionFields (s ++ ',' :: extra) =
      some (x, y, w, h, ',' :: extra) := by
  cases h1 : scanInt s with
  | none => simp [scanRegionFields, h1] at hscan
  | some p1 =>
    cases h2 : scanLit ',' p1.2 with
    | none => simp [scanRegionFields, h1, h2] at hscan
    | some r2 =>
      cases h3 : scanInt r2 with
      | none => simp [scanRegionFields, h1, h2, h3] at hscan
      | some p2 =>
        cases h4 : scanLit ',' p2.2 with
        | none => simp [scanRegionFields, h1, h2, h3, h4] at hscan
        | some r4 =>
          cases h5 : scanInt r4 with
          | none => simp [scanRegionFields, h1, h2, h3, h4, h5] at hscan
          | some p3 =>
            cases h6 : scanLit ',' p3.2 with
            | none =>
              simp [scanRegionFields, h1, h2, h3, h4, h5, h6] at hscan
            | some r6 =>
              cases h7 : scanInt r6 with
              | none =>
                simp [scanRegionFields, h1, h2, h3, h4, h5, h6, h7] at hscan
              | some p4 =>
                simp only [scanRegionFields, h1, h2, h3, h4, h5, h6, h7,
                  Option.bind_eq_bind, Option.some_bind,
                  Option.some.injEq, Prod.mk.injEq] at hscan
                obtain ⟨e1, e2, e3, e4, e5⟩ := hscan
                have a1 := scanInt_append s (',' :: extra) p1.1 p1.2
                  (by rw [h1]) (comma_boundary extra)
                have a2 := scanLit_append ',' p1.2 (',' :: extra) r2 h2
                have a3 := scanInt_append r2 (',' :: extra) p2.1 p2.2
                  (by rw [h3]) (comma_boundary extra)
                have a4 := scanLit_append ',' p2.2 (',' :: extra) r4 h4
                have a5 := scanInt_append r4 (',' :: extra) p3.1 p3.2
                  (by rw [h5]) (comma_boundary extra)
                have a6 := scanLit_append ',' p3.2 (',' :: extra) r6 h6
                have a7 := scanInt_append r6 (',' :: extra) p4.1 p4.2
                  (by rw [h7]) (comma_boundary extra)
                simp only [scanRegionFields, a1, Option.bind_eq_bind,
                  Option.some_bind, a2, a3, a4, a5, a6, a7,
                  Option.some.injEq, Prod.mk.injEq, e1, e2, e3, e4, e5]
                simp

/-- Amended C8: `ParseRegionString` rejects every input on which the
four-integer comma-separated scan fails — in particular when one of the
first three fields is not an integer — and every input whose parsed width or
height is non-positive; it never returns a region with non-positive width or
height; and everything after the fourth scanned integer, extra
comma-separated fields included, is ignored (so a fourth field that merely
begins with an integer is accepted, which is what refutes the original
claim). -/
theorem c8_parse_rejection (s : List Char) :
    (∀ r, ParseRegionString s = .ok r → 0 < r.width ∧ 0 < r.height) ∧
    (scanRegionFields s = none →
      ParseRegionString s = .error "invalid region format") ∧
    (∀ x y w h rest, scanRegionFields s = some (x, y, w, h, rest) →
      w ≤ 0 ∨ h ≤ 0 →
      ParseRegionString s = .error "width and height must be positive") ∧
    (∀ x y w h, scanRegionFields s = some (x, y, w, h, []) →
      ∀ extra, ParseRegionString (s ++ ',' :: extra) = ParseRegionString s) := by
  refine ⟨?_, ?_, ?_, ?_⟩
  · intro r hr
    cases hscan : scanRegionFields s with
    | none => simp [ParseRegionString, hscan] at hr
    | some q =>
      obtain ⟨x, y, w, h, rest⟩ := q
      simp only [ParseRegionString, hscan] at hr
      by_cases hcond : w ≤ 0 ∨ h ≤ 0
      · rw [if_pos hcond] at hr
        cases hr
      · rw [if_neg hcond] at hr
        injection hr with hr1
        subst hr1
        refine ⟨?_, ?_⟩
        · show 0 < w
          omega
        · show 0 < h
          omega
  · intro hnone
    simp [ParseRegionString, hnone]
  · intro x y w h rest hscan hcond
    simp only [ParseRegionString, hscan]
    rw [if_pos hcond]
  · intro x y w h hscan extra
    have happ := scanRegionFields_append s extra x y w h hscan
    simp only [ParseRegionString, hscan, happ]

/-- Witness for the amended C8: `"1,2,3,4"` parses to a region with positive
width and height, and appending the extra field `",9"` does not change the
parse result. -/
theorem c8_parse_rejection_witness :
    (0 < (Region.mk 1 2 3 4).width ∧ 0 < (Region.mk 1 2 3 4).height) ∧
    ParseRegionString ("1,2,3,4".data ++ ',' :: "9".data) =
      ParseRegionString "1,2,3,4".data :=
  ⟨(c8_parse_rejection "1,2,3,4".data).1 ⟨1, 2, 3, 4⟩ rfl,
   (c8_parse_rejection "1,2,3,4".data).2.2.2 1 2 3 4 rfl "9".data⟩

end Witness
